import Mathlib

/-!
Shallow embedding of `src/elastic_chain/simulation.py`.

Python floats are modelled by exact rationals (ℚ); the rendering layer
(matplotlib `Circle` state, colors, `center`) is out of scope per the spec
and is not part of the ring state.
-/

namespace ElasticChain

/-- Free fall acceleration: the module-level constant `g = -1` of the source. -/
def g : ℚ := -1

/-- Variant of a ring: `PassiveRing` (gravity only) or `ActiveRing`
(gravity plus a constant self-acceleration `a`), as in the two subclasses
of `RingInterface`. -/
inductive Role where
  | passive : Role
  | active (a : ℚ) : Role
  deriving DecidableEq, Inhabited

/-- Physical state of one ring: `self.y`, `self.vy`, `self.r` of
`RingInterface`, plus the variant tag (with the `self.a` field of
`ActiveRing` attached to the tag). -/
structure Ring where
  y : ℚ
  vy : ℚ
  r : ℚ
  role : Role
  deriving DecidableEq, Inhabited

/-- Constructor of `RingInterface.__init__`: a ring starts at height `y`
with `vy = 0` and radius `r`. -/
def mkRing (y r : ℚ) (role : Role) : Ring :=
  { y := y, vy := 0, r := r, role := role }

/-- The variant-specific `_move(dt)`:
`PassiveRing._move` does `y += vy*dt + g*dt**2/2; vy += g*dt`,
`ActiveRing._move` does `y += vy*dt + (g+a)*dt**2/2; vy += (g+a)*dt`. -/
def Ring.subMove (ring : Ring) (dt : ℚ) : Ring :=
  match ring.role with
  | .passive =>
      { ring with
        y := ring.y + ring.vy * dt + g * dt ^ 2 / 2
        vy := ring.vy + g * dt }
  | .active a =>
      { ring with
        y := ring.y + ring.vy * dt + (g + a) * dt ^ 2 / 2
        vy := ring.vy + (g + a) * dt }

/-- The shared `RingInterface.move(dt)`: run the variant update, then the
floor clamp `if self.y - self.r <= 0: self.y = self.r; self.vy = 0`. -/
def Ring.move (ring : Ring) (dt : ℚ) : Ring :=
  let m := ring.subMove dt
  if m.y - m.r ≤ 0 then { m with y := m.r, vy := 0 } else m

/-- The state of `Simulator`: the ring list, the precomputed pair list and
the fixed time step. -/
structure Simulator where
  rings : List Ring
  pairs : List (Nat × Nat)
  dt : ℚ
  deriving DecidableEq, Inhabited

/-- The body of `Simulator.collide(ring1, ring2)` as a pure function: it
returns the new states of `ring1` and `ring2` in their original order.
After averaging the velocities, the Python code swaps the two local names
so that `ring1` denotes the lower ring before the position update; the two
branches of the `if` below reproduce that relabeling. -/
def Simulator.collide (ring1 ring2 : Ring) : Ring × Ring :=
  let v := (ring1.vy + ring2.vy) / 2
  let a := { ring1 with vy := v }
  let b := { ring2 with vy := v }
  if b.y < a.y then
    let yAv := (b.y + b.r + a.y - a.r) / 2
    ({ a with y := yAv + a.r }, { b with y := yAv - b.r })
  else
    let yAv := (a.y + a.r + b.y - b.r) / 2
    ({ a with y := yAv - a.r }, { b with y := yAv + b.r })

/-- One iteration of the pair loop in `Simulator.update`: look up the two
rings of the pair; if `abs(ring1.y - ring2.y) <= ring1.r + ring2.r` the
loop `continue`s, otherwise `self.collide(ring1, ring2)` mutates both. -/
def resolveStep (rings : List Ring) (p : Nat × Nat) : List Ring :=
  let ring1 := rings.getD p.1 default
  let ring2 := rings.getD p.2 default
  if |ring1.y - ring2.y| ≤ ring1.r + ring2.r then rings
  else
    let c := Simulator.collide ring1 ring2
    (rings.set p.1 c.1).set p.2 c.2

/-- The whole pair loop of `Simulator.update`: the pairs are processed in
list order, each step acting on the state left by the previous one. -/
def resolvePhase (rings : List Ring) (pairs : List (Nat × Nat)) : List Ring :=
  pairs.foldl resolveStep rings

/-- The resolution step as the specification describes it, for comparison
with `resolveStep`: skip when `|y_i - y_j| > r_i + r_j` (no overlap), and
invoke the resolver otherwise. -/
def resolveStepSpec (rings : List Ring) (p : Nat × Nat) : List Ring :=
  let ring1 := rings.getD p.1 default
  let ring2 := rings.getD p.2 default
  if ring1.r + ring2.r < |ring1.y - ring2.y| then rings
  else
    let c := Simulator.collide ring1 ring2
    (rings.set p.1 c.1).set p.2 c.2

/-- One full tick, `Simulator.update`: move every ring by `dt`, then run
the pair loop on the result. -/
def Simulator.update (s : Simulator) : Simulator :=
  { s with rings := resolvePhase (s.rings.map (fun ring => ring.move s.dt)) s.pairs }

/-- The constructor `Simulator.__init__(N, F, axis, dt)`: the local radius
is `r = 0.1`; `N-1` passive rings and one active ring carrying `F` are
appended, each at height `r`; `pairs = [(i, i+1) for i in
reversed(range(N-1))]`. The `axis.add_patch` calls are rendering only. -/
def Simulator.init (N : Nat) (F dt : ℚ) : Simulator :=
  let r : ℚ := 1/10
  { rings := List.replicate (N - 1) (mkRing r r Role.passive) ++ [mkRing r r (Role.active F)]
    pairs := ((List.range (N - 1)).reverse).map (fun i => (i, i + 1))
    dt := dt }



/-! Helper lemmas shared by several claim theorems. -/

theorem collide_fst_vy (A B : Ring) :
    (Simulator.collide A B).1.vy = (A.vy + B.vy) / 2 := by
  unfold Simulator.collide
  dsimp only
  split <;> rfl

theorem collide_snd_vy (A B : Ring) :
    (Simulator.collide A B).2.vy = (A.vy + B.vy) / 2 := by
  unfold Simulator.collide
  dsimp only
  split <;> rfl

/-- C10: collision resolution conserves total momentum: for every pair of
rings, the sum of the two velocities after `collide` equals the sum before
(both are set to the same average, masses being implicitly equal). -/
theorem collide_momentum_conserved (A B : Ring) :
    (Simulator.collide A B).1.vy + (Simulator.collide A B).2.vy = A.vy + B.vy := by
  rw [collide_fst_vy, collide_snd_vy]
  ring

/-- C3: for every ring and every `dt > 0`, after `move dt` the invariant
`y - r ≥ 0` holds; if the variant-specific update leaves `y - r ≤ 0` then
`y` is set to exactly `r` and `vy` to `0`, and otherwise `y` and `vy` are
exactly as the variant update computed them. -/
theorem move_floor_invariant (ring : Ring) (dt : ℚ) (hdt : 0 < dt) :
    0 ≤ (ring.move dt).y - (ring.move dt).r ∧
    ((ring.subMove dt).y - (ring.subMove dt).r ≤ 0 →
      ring.move dt = { ring.subMove dt with y := (ring.subMove dt).r, vy := 0 }) ∧
    (0 < (ring.subMove dt).y - (ring.subMove dt).r → ring.move dt = ring.subMove dt) := by
  unfold Ring.move
  by_cases h : (ring.subMove dt).y - (ring.subMove dt).r ≤ 0
  · rw [if_pos h]
    refine ⟨by simp, fun _ => rfl, fun h2 => absurd h (by linarith)⟩
  · rw [if_neg h]
    exact ⟨by linarith [not_le.mp h], fun h2 => absurd h2 h, fun _ => rfl⟩

/-- Witness for C3 at a concrete passive ring and `dt = 1/100`. -/
theorem move_floor_invariant_witness :
    0 ≤ ((mkRing (1/10) (1/10) Role.passive).move (1/100)).y -
      ((mkRing (1/10) (1/10) Role.passive).move (1/100)).r :=
  (move_floor_invariant (mkRing (1/10) (1/10) Role.passive) (1/100) (by norm_num)).1

/-- C4: for every pair of rings with positive radii satisfying the overlap
precondition `|yA - yB| ≤ rA + rB`, after `collide` both velocities equal
the pre-collision average `(vA + vB)/2` and the rings are exactly tangent:
the higher center minus the lower center equals `rA + rB`. -/
theorem collide_overlap_resolution (A B : Ring) (hA : 0 < A.r) (hB : 0 < B.r)
    (hover : |A.y - B.y| ≤ A.r + B.r) :
    (Simulator.collide A B).1.vy = (A.vy + B.vy) / 2 ∧
    (Simulator.collide A B).2.vy = (A.vy + B.vy) / 2 ∧
    max (Simulator.collide A B).1.y (Simulator.collide A B).2.y -
      min (Simulator.collide A B).1.y (Simulator.collide A B).2.y = A.r + B.r := by
  refine ⟨collide_fst_vy A B, collide_snd_vy A B, ?_⟩
  unfold Simulator.collide
  dsimp only
  split
  · simp only
    rw [max_eq_left (by linarith), min_eq_right (by linarith)]
    ring
  · simp only
    rw [max_eq_right (by linarith), min_eq_left (by linarith)]
    ring

/-- Witness for C4 at the spec's fixture `yA = 0.5`, `yB = 0.55`,
`r = 0.1` (overlap since `0.05 ≤ 0.2`). -/
theorem collide_overlap_resolution_witness :
    (Simulator.collide { y := 1/2, vy := 0, r := 1/10, role := Role.passive }
        { y := 11/20, vy := 1, r := 1/10, role := Role.passive }).1.vy =
      ((0 : ℚ) + 1) / 2 ∧
    (Simulator.collide { y := 1/2, vy := 0, r := 1/10, role := Role.passive }
        { y := 11/20, vy := 1, r := 1/10, role := Role.passive }).2.vy =
      ((0 : ℚ) + 1) / 2 ∧
    max (Simulator.collide { y := 1/2, vy := 0, r := 1/10, role := Role.passive }
        { y := 11/20, vy := 1, r := 1/10, role := Role.passive }).1.y
      (Simulator.collide { y := 1/2, vy := 0, r := 1/10, role := Role.passive }
        { y := 11/20, vy := 1, r := 1/10, role := Role.passive }).2.y -
      min (Simulator.collide { y := 1/2, vy := 0, r := 1/10, role := Role.passive }
        { y := 11/20, vy := 1, r := 1/10, role := Role.passive }).1.y
      (Simulator.collide { y := 1/2, vy := 0, r := 1/10, role := Role.passive }
        { y := 11/20, vy := 1, r := 1/10, role := Role.passive }).2.y = 1/10 + 1/10 :=
  collide_overlap_resolution
    { y := 1/2, vy := 0, r := 1/10, role := Role.passive }
    { y := 11/20, vy := 1, r := 1/10, role := Role.passive }
    (by norm_num) (by norm_num) (by norm_num [abs_of_nonpos])

/-- C8: the variant motion update is explicit Euler with `g = -1`: a
passive ring does `y += vy*dt + g*dt^2/2; vy += g*dt` and an active ring
with self-acceleration `a` does the same with `g + a` in place of `g`,
for every ring state and every `dt`. -/
theorem subMove_explicit_euler (ring : Ring) (dt : ℚ) :
    g = -1 ∧
    (ring.role = Role.passive →
      ring.subMove dt =
        { ring with
          y := ring.y + ring.vy * dt + g * dt ^ 2 / 2
          vy := ring.vy + g * dt }) ∧
    (∀ a : ℚ, ring.role = Role.active a →
      ring.subMove dt =
        { ring with
          y := ring.y + ring.vy * dt + (g + a) * dt ^ 2 / 2
          vy := ring.vy + (g + a) * dt }) := by
  refine ⟨rfl, ?_, ?_⟩
  · intro h
    unfold Ring.subMove
    rw [h]
  · intro a h
    unfold Ring.subMove
    rw [h]

/-- Witness for C8 at a concrete passive ring and `dt = 1/100`. -/
theorem subMove_explicit_euler_witness :
    (mkRing (1/10) (1/10) Role.passive).subMove (1/100) =
      { mkRing (1/10) (1/10) Role.passive with
        y := (mkRing (1/10) (1/10) Role.passive).y +
          (mkRing (1/10) (1/10) Role.passive).vy * (1/100) + g * (1/100) ^ 2 / 2
        vy := (mkRing (1/10) (1/10) Role.passive).vy + g * (1/100) } :=
  (subMove_explicit_euler (mkRing (1/10) (1/10) Role.passive) (1/100)).2.1 rfl
/-- C9: collision resolution performs no floor re-check: the resolver
always sets both velocities to the plain average (never forcibly to `0`),
and at the concrete overlapping pair with centers `0.1` and `0.15` and
radii `0.1` it leaves the lower ring with `y - r = -3/40 < 0`, a transient
violation of the floor invariant before the next `move`. -/
theorem collide_no_floor_clamp :
    (∀ A B : Ring,
      (Simulator.collide A B).1.vy = (A.vy + B.vy) / 2 ∧
      (Simulator.collide A B).2.vy = (A.vy + B.vy) / 2) ∧
    |({ y := 1/10, vy := 0, r := 1/10, role := Role.passive } : Ring).y -
        ({ y := 3/20, vy := 0, r := 1/10, role := Role.passive } : Ring).y| ≤
      ({ y := 1/10, vy := 0, r := 1/10, role := Role.passive } : Ring).r +
        ({ y := 3/20, vy := 0, r := 1/10, role := Role.passive } : Ring).r ∧
    (Simulator.collide { y := 1/10, vy := 0, r := 1/10, role := Role.passive }
          { y := 3/20, vy := 0, r := 1/10, role := Role.passive }).1.y -
      (Simulator.collide { y := 1/10, vy := 0, r := 1/10, role := Role.passive }
          { y := 3/20, vy := 0, r := 1/10, role := Role.passive }).1.r < 0 := by
  refine ⟨fun A B => ⟨collide_fst_vy A B, collide_snd_vy A B⟩, ?_, ?_⟩
  · norm_num [abs_of_nonpos]
  · norm_num [Simulator.collide]

/-- C7 counterexample: construction with the out-of-range input `N = 0`
does not fail fast; it completes and yields a fully defined simulator with
one active ring and an empty pair list. -/
theorem init_accepts_N_zero :
    (Simulator.init 0 1 (1/100)).rings =
      [{ y := 1/10, vy := 0, r := 1/10, role := Role.active 1 }] ∧
    (Simulator.init 0 1 (1/100)).pairs = [] ∧
    (Simulator.init 0 1 (1/100)).dt = 1/100 :=
  ⟨rfl, rfl, rfl⟩

/-- C7 amended: the constructor performs no input validation: for every
`N`, `F` and `dt` — including `N = 0` and `dt ≤ 0` — construction
completes, producing `(N - 1) + 1` rings and storing `dt` unchecked, and
`N = 0` yields the same ring list as `N = 1`. -/
theorem init_no_validation (N : Nat) (F dt : ℚ) :
    (Simulator.init N F dt).rings.length = N - 1 + 1 ∧
    (Simulator.init N F dt).dt = dt ∧
    (Simulator.init 0 F dt).rings = (Simulator.init 1 F dt).rings := by
  refine ⟨?_, rfl, rfl⟩
  simp [Simulator.init]

/-- C5: for every `N ≥ 1` the pair list has length `N - 1` and its `k`-th
entry is `(N-2-k, N-1-k)`, i.e. the pairs `(i, i+1)` for
`i = N-2, N-3, ..., 0` in reverse index order; for `N = 3` it is
`[(1, 2), (0, 1)]`, and for `N = 1` it is empty, so the resolution phase
of a tick never invokes the resolver. -/
theorem init_pairs_reverse (N : Nat) (F dt : ℚ) (hN : 1 ≤ N) :
    (Simulator.init N F dt).pairs.length = N - 1 ∧
    (∀ k, k < N - 1 →
      (Simulator.init N F dt).pairs[k]? = some (N - 2 - k, N - 1 - k)) ∧
    (Simulator.init 3 F dt).pairs = [(1, 2), (0, 1)] ∧
    (Simulator.init 1 F dt).pairs = [] ∧
    (∀ rs : List Ring, resolvePhase rs (Simulator.init 1 F dt).pairs = rs) := by
  refine ⟨by simp [Simulator.init], ?_, rfl, rfl, fun rs => rfl⟩
  intro k hk
  show (((List.range (N - 1)).reverse).map (fun i => (i, i + 1)))[k]? = _
  rw [List.getElem?_map, List.getElem?_reverse (by simpa using hk),
    List.length_range, List.getElem?_range (by omega)]
  simp only [Option.map_some', Option.some.injEq, Prod.mk.injEq]
  omega

/-- Witness for C5 at `N = 3`: the pair list is `[(1, 2), (0, 1)]`. -/
theorem init_pairs_reverse_witness :
    (Simulator.init 3 0 (1/100)).pairs = [(1, 2), (0, 1)] :=
  (init_pairs_reverse 3 0 (1/100) (by norm_num)).2.2.1

/-- C6: for every `N ≥ 1` construction yields exactly `N` rings: indices
`0 .. N-2` are passive and index `N-1` is active carrying
`self_acceleration = F`; every ring has the shared radius `1/10`, initial
height equal to that radius and zero initial velocity. -/
theorem init_rings_layout (N : Nat) (F dt : ℚ) (hN : 1 ≤ N) :
    (Simulator.init N F dt).rings.length = N ∧
    (∀ k, k < N - 1 → (Simulator.init N F dt).rings[k]? =
      some { y := 1/10, vy := 0, r := 1/10, role := Role.passive }) ∧
    (Simulator.init N F dt).rings[N - 1]? =
      some { y := 1/10, vy := 0, r := 1/10, role := Role.active F } ∧
    (∀ ring ∈ (Simulator.init N F dt).rings,
      ring.y = ring.r ∧ ring.vy = 0 ∧ ring.r = 1/10) := by
  refine ⟨?_, ?_, ?_, ?_⟩
  · simp [Simulator.init]
    omega
  · intro k hk
    show (List.replicate (N - 1) (mkRing (1/10) (1/10) Role.passive) ++ _)[k]? = _
    rw [List.getElem?_append_left (by simpa using hk), List.getElem?_replicate, if_pos hk]
    rfl
  · show (List.replicate (N - 1) (mkRing (1/10) (1/10) Role.passive) ++ _)[N - 1]? = _
    rw [List.getElem?_append_right (by simp), List.length_replicate, Nat.sub_self]
    rfl
  · intro ring hring
    show ring.y = ring.r ∧ ring.vy = 0 ∧ ring.r = 1/10
    rcases List.mem_append.mp hring with hmem | hmem
    · rw [List.eq_of_mem_replicate hmem]
      exact ⟨rfl, rfl, rfl⟩
    · rw [List.mem_singleton.mp hmem]
      exact ⟨rfl, rfl, rfl⟩

/-- Witness for C6 at `N = 3`, `F = 5`: the last ring is the active one
with `self_acceleration = 5`. -/
theorem init_rings_layout_witness :
    (Simulator.init 3 5 (1/100)).rings[3 - 1]? =
      some { y := 1/10, vy := 0, r := 1/10, role := Role.active 5 } :=
  (init_rings_layout 3 5 (1/100) (by norm_num)).2.2.1
/-- C1 counterexample: at an overlapping pair — `|y0 - y1| = 1/20 ≤ 1/5 =
r0 + r1` — the pair loop of `update` skips, leaving the state unchanged,
whereas the claimed rule (resolver invoked on overlap) would change both
velocities. -/
theorem resolveStep_skips_overlapping_pair :
    |({ y := 1/10, vy := 0, r := 1/10, role := Role.passive } : Ring).y -
        ({ y := 3/20, vy := 1, r := 1/10, role := Role.passive } : Ring).y| ≤
      ({ y := 1/10, vy := 0, r := 1/10, role := Role.passive } : Ring).r +
        ({ y := 3/20, vy := 1, r := 1/10, role := Role.passive } : Ring).r ∧
    resolveStep [{ y := 1/10, vy := 0, r := 1/10, role := Role.passive },
        { y := 3/20, vy := 1, r := 1/10, role := Role.passive }] (0, 1) =
      [{ y := 1/10, vy := 0, r := 1/10, role := Role.passive },
        { y := 3/20, vy := 1, r := 1/10, role := Role.passive }] ∧
    resolveStepSpec [{ y := 1/10, vy := 0, r := 1/10, role := Role.passive },
        { y := 3/20, vy := 1, r := 1/10, role := Role.passive }] (0, 1) ≠
      [{ y := 1/10, vy := 0, r := 1/10, role := Role.passive },
        { y := 3/20, vy := 1, r := 1/10, role := Role.passive }] := by
  refine ⟨by norm_num [abs_of_nonpos], ?_, ?_⟩
  · norm_num [resolveStep, abs_of_nonpos]
  · norm_num [resolveStepSpec, Simulator.collide, Ring.ext_iff, abs_of_nonpos]

/-- C1 amended: in the pair loop of `update` the overlap test is the
reverse of the spec's: a pair with `|y_i - y_j| ≤ r_i + r_j` is skipped,
and the resolver is invoked — mutating both rings — exactly when
`|y_i - y_j| > r_i + r_j`. -/
theorem resolveStep_condition_inverted (rings : List Ring) (i j : Nat) :
    (|(rings.getD i default).y - (rings.getD j default).y| ≤
        (rings.getD i default).r + (rings.getD j default).r →
      resolveStep rings (i, j) = rings) ∧
    ((rings.getD i default).r + (rings.getD j default).r <
        |(rings.getD i default).y - (rings.getD j default).y| →
      resolveStep rings (i, j) =
        (rings.set i
          (Simulator.collide (rings.getD i default) (rings.getD j default)).1).set j
          (Simulator.collide (rings.getD i default) (rings.getD j default)).2) := by
  constructor
  · intro h
    unfold resolveStep
    dsimp only
    rw [if_pos h]
  · intro h
    unfold resolveStep
    dsimp only
    rw [if_neg (not_le.mpr h)]

/-- Witness for C1 amended at a concrete overlapping pair: the step is a
skip. -/
theorem resolveStep_condition_inverted_witness :
    resolveStep [{ y := 1/4, vy := 2, r := 1/10, role := Role.passive },
        { y := 3/10, vy := 0, r := 1/10, role := Role.passive }] (0, 1) =
      [{ y := 1/4, vy := 2, r := 1/10, role := Role.passive },
        { y := 3/10, vy := 0, r := 1/10, role := Role.passive }] :=
  (resolveStep_condition_inverted
      [{ y := 1/4, vy := 2, r := 1/10, role := Role.passive },
        { y := 3/10, vy := 0, r := 1/10, role := Role.passive }] 0 1).1
    (by norm_num [List.getD_cons_zero, List.getD_cons_succ, abs_of_nonpos])

/-- C2 counterexample: a concrete two-ring tick in which, after the
motion phase, the only adjacent pair does not overlap
(`|Δy| = 17999/20000 > 1/5 = r0 + r1`), yet the rings after the full
`update` differ from the rings right after the motion phase: the code
collides precisely the non-overlapping pairs. -/
theorem resolvePhase_changes_separated_pair :
    (Simulator.mk [{ y := 1/10, vy := 0, r := 1/10, role := Role.passive },
          { y := 1, vy := 0, r := 1/10, role := Role.passive }] [(0, 1)]
          (1/100)).rings.map (fun ring => ring.move (1/100)) =
      [{ y := 1/10, vy := 0, r := 1/10, role := Role.passive },
        { y := 19999/20000, vy := -(1/100), r := 1/10, role := Role.passive }] ∧
    ({ y := 1/10, vy := 0, r := 1/10, role := Role.passive } : Ring).r +
        ({ y := 19999/20000, vy := -(1/100), r := 1/10, role := Role.passive } : Ring).r <
      |({ y := 1/10, vy := 0, r := 1/10, role := Role.passive } : Ring).y -
        ({ y := 19999/20000, vy := -(1/100), r := 1/10, role := Role.passive } : Ring).y| ∧
    (Simulator.update
        (Simulator.mk [{ y := 1/10, vy := 0, r := 1/10, role := Role.passive },
          { y := 1, vy := 0, r := 1/10, role := Role.passive }] [(0, 1)]
          (1/100))).rings ≠
      [{ y := 1/10, vy := 0, r := 1/10, role := Role.passive },
        { y := 19999/20000, vy := -(1/100), r := 1/10, role := Role.passive }] := by
  refine ⟨?_, by norm_num [abs_of_nonpos], ?_⟩
  · norm_num [Ring.move, Ring.subMove, g, Ring.ext_iff]
  · norm_num [Simulator.update, resolvePhase, resolveStep, Simulator.collide,
      Ring.move, Ring.subMove, g, Ring.ext_iff, abs_of_nonpos]

/-- C2 amended: the resolution phase is a no-op exactly under the reverse
condition: if after the motion phase every adjacent pair `(i, j)` of the
pair list satisfies `|y_i - y_j| ≤ r_i + r_j`, then the rings after the
resolution phase equal the rings right after the motion phase. -/
theorem resolvePhase_noop_when_pairs_close (rings : List Ring)
    (pairs : List (Nat × Nat)) :
    (∀ p ∈ pairs,
      |(rings.getD p.1 default).y - (rings.getD p.2 default).y| ≤
        (rings.getD p.1 default).r + (rings.getD p.2 default).r) →
    resolvePhase rings pairs = rings := by
  induction pairs with
  | nil => intro h; rfl
  | cons p ps ih =>
      intro h
      have hstep : resolveStep rings p = rings := by
        unfold resolveStep
        dsimp only
        rw [if_pos (h p (List.mem_cons_self p ps))]
      show List.foldl resolveStep (resolveStep rings p) ps = rings
      rw [hstep]
      exact ih (fun q hq => h q (List.mem_cons_of_mem p hq))

/-- Witness for C2 amended at a concrete close pair: the phase is a
no-op. -/
theorem resolvePhase_noop_when_pairs_close_witness :
    resolvePhase [{ y := 1/10, vy := 3, r := 1/10, role := Role.passive },
        { y := 3/20, vy := 7, r := 1/10, role := Role.passive }] [(0, 1)] =
      [{ y := 1/10, vy := 3, r := 1/10, role := Role.passive },
        { y := 3/20, vy := 7, r := 1/10, role := Role.passive }] :=
  resolvePhase_noop_when_pairs_close _ _ (by
    intro p hp
    simp only [List.mem_singleton] at hp
    subst hp
    norm_num [List.getD_cons_zero, List.getD_cons_succ, abs_of_nonpos])
end ElasticChain
